import Mathlib

/-!
# pow-shield: verification of the core validation pipeline

A shallow embedding of the pow-shield proof-of-work protection system:
the difficulty check and HMAC helpers (src/src/utils/crypto.ts), the
client puzzle solver (src/src/client.ts), the configuration merger
(src/src/config.ts), the origin trust verifier (src/src/server.ts) and
the edge validator together with its LRU-backed replay/rate store
(the compiled worker, src/unnamed/part_003).

JavaScript conventions carried over explicitly: `x || d` fallbacks treat
`0`, `""`, `null` and `undefined` as falsy; `parseInt` parses the longest
decimal prefix; header lookups return `none` for an absent header.
-/

set_option autoImplicit false

namespace PowShield

/-- JS truthiness of an optional header/config string: an absent value and
the empty string are falsy, every other string is truthy. -/
def jsTruthy : Option String → Bool
  | none => false
  | some s => !(s == "")

/-- JS `x || d` for an optional numeric config field: `undefined` and `0`
both fall back to the default. -/
def jsOrNat : Option Nat → Nat → Nat
  | none, d => d
  | some n, d => if n = 0 then d else n

/-- JS `x || d` for an optional string: `undefined` and `""` fall back. -/
def jsOrStr : Option String → String → String
  | none, d => d
  | some s, d => if s = "" then d else s

/-- Numeric value of one decimal digit character. -/
def digitVal (c : Char) : Nat := c.toNat - '0'.toNat

/-- Value of a list of decimal digits, most significant first. -/
def decDigitsVal (l : List Char) : Nat :=
  l.foldl (fun acc c => acc * 10 + digitVal c) 0

/-- JS `parseInt(s, 10)`: skip leading whitespace, read an optional sign,
then the longest prefix of decimal digits; the result is `NaN` (here
`none`) when that prefix is empty. -/
def parseInt10 (s : String) : Option Int :=
  let l := s.toList.dropWhile Char.isWhitespace
  let signAndRest : Bool × List Char :=
    match l with
    | '-' :: rest => (true, rest)
    | '+' :: rest => (false, rest)
    | rest => (false, rest)
  let digits := signAndRest.2.takeWhile Char.isDigit
  if digits.isEmpty then none
  else if signAndRest.1 then some (-(decDigitsVal digits : Int))
  else some (decDigitsVal digits : Int)

/-- Numeric value of a hex digit as JS `parseInt(c, 16)` computes it
(`none` encodes `NaN`). -/
def hexVal (c : Char) : Option Nat :=
  if '0' ≤ c ∧ c ≤ '9' then some (c.toNat - '0'.toNat)
  else if 'a' ≤ c ∧ c ≤ 'f' then some (c.toNat - 'a'.toNat + 10)
  else if 'A' ≤ c ∧ c ≤ 'F' then some (c.toNat - 'A'.toNat + 10)
  else none

/-- Whether every character of a string is a hex digit. -/
def isHexString (s : String) : Bool :=
  s.toList.all (fun c => (hexVal c).isSome)

/-- A bit rendered as the character JS `Number.toString(2)` produces. -/
def bitChar (b : Bool) : Char := if b then '1' else '0'

/-- One character of the digest as `CryptoUtils.hasLeadingZeros` expands it:
`parseInt(hash[i], 16).toString(2).padStart(4, '0')`. A hex digit becomes
its 4-bit binary string, most significant bit first; any other character
makes `parseInt` return `NaN`, and `"NaN".padStart(4, '0')` is `"0NaN"`. -/
def jsNibbleChars (c : Char) : List Char :=
  match hexVal c with
  | some v => [bitChar (v.testBit 3), bitChar (v.testBit 2),
               bitChar (v.testBit 1), bitChar (v.testBit 0)]
  | none => ['0', 'N', 'a', 'N']

/-- The check loop of `CryptoUtils.hasLeadingZeros`:
`for (i = 0; i < difficulty; i++) if (binary[i] !== '0') return false`.
Indexing past the end of the string yields `undefined`, which differs
from `'0'`, so the loop returns `false` there. -/
def leadingZeroLoop : List Char → Nat → Bool
  | _, 0 => true
  | [], _ + 1 => false
  | c :: rest, d + 1 => if c = '0' then leadingZeroLoop rest d else false

/-- `CryptoUtils.hasLeadingZeros` (src/src/utils/crypto.ts, lines 46-61). -/
def hasLeadingZeros (hash : String) (difficulty : Nat) : Bool :=
  leadingZeroLoop (hash.toList.map jsNibbleChars).flatten difficulty

/-- Specification-side reading of the difficulty semantics: the digest as a
sequence of 4-bit nibbles (one per hex character) concatenated into a bit
string, most significant bit of each nibble first. -/
def nibbleBits (d : String) : List Bool :=
  (d.toList.map (fun c =>
    [((hexVal c).getD 0).testBit 3, ((hexVal c).getD 0).testBit 2,
     ((hexVal c).getD 0).testBit 1, ((hexVal c).getD 0).testBit 0])).flatten

/-- The crypto-js digest primitives, kept abstract: the pipeline treats
SHA-256 and the two HMAC variants as opaque deterministic functions from
strings to hex strings. -/
structure HashModel where
  sha256 : String → String
  hmacSHA256 : String → String → String
  hmacSHA512 : String → String → String

/-- The HMAC algorithm choice of the configuration. -/
inductive HmacAlgo
  | sha256
  | sha512
deriving DecidableEq, Repr

/-- `CryptoUtils.hmac(data, secret, algorithm = 'sha256')`: dispatch on the
algorithm, with the default parameter applied when the caller passes an
undefined configuration field. -/
def cryptoHmac (h : HashModel) (data secret : String) : Option HmacAlgo → String
  | some .sha256 => h.hmacSHA256 data secret
  | some .sha512 => h.hmacSHA512 data secret
  | none => h.hmacSHA256 data secret

/-- `isProtectedEndpoint`, identical in client.ts, server.ts and the worker:
exact match, or prefix match when the configured pattern ends in `*`. -/
def isProtectedEndpoint (endpoints : List String) (endpoint : String) : Bool :=
  if endpoints.isEmpty then false
  else endpoints.any (fun p =>
    if endpoint = p then true
    else if p.endsWith "*" then endpoint.startsWith (p.dropRight 1)
    else false)

/-- A value stored in the worker's single LRU cache: the `true` marker for a
seen nonce, or an integer rate counter. -/
inductive CacheVal
  | mark
  | count (n : Nat)
deriving DecidableEq, Repr

/-- One cache slot: `start` is the millisecond clock value of the last `set`
of this key, `ttl` its time-to-live in milliseconds. -/
structure Entry where
  key : String
  val : CacheVal
  start : Nat
  ttl : Nat
deriving DecidableEq, Repr

/-- The state of the `lru-cache` instance the worker constructs. `entries`
is kept in recency order, most recently used first. Modelled from the
semantics of the `lru-cache` package (`^11.1.0`) that the worker depends
on: entries expire `ttl` milliseconds after their last `set` (a `set` of an
existing key refreshes the clock, since the worker never passes
`noUpdateTTL`); `get` moves a live entry to most recently used and deletes
a stale one; `has` reports liveness without touching recency; inserting a
new key at capacity evicts the least recently used entry. -/
structure Cache where
  max : Nat
  defaultTtl : Nat
  entries : List Entry
deriving DecidableEq, Repr

/-- An entry is stale once more than `ttl` milliseconds have passed since
its last `set` (a `ttl` of `0` means no expiry). -/
def entryStale (now : Nat) (e : Entry) : Bool :=
  decide (e.ttl ≠ 0) && decide (e.ttl < now - e.start)

/-- Look a key up in the entry list (keys are unique). -/
def Cache.findEntry (c : Cache) (key : String) : Option Entry :=
  c.entries.find? (fun e => e.key == key)

/-- Drop the entry with the given key. -/
def Cache.removeKey (c : Cache) (key : String) : Cache :=
  { c with entries := c.entries.filter (fun e => !(e.key == key)) }

/-- `cache.has(key)`: true iff the key is present and not stale. -/
def Cache.has (c : Cache) (now : Nat) (key : String) : Bool :=
  match c.findEntry key with
  | some e => !entryStale now e
  | none => false

/-- `cache.get(key)`: a live entry is returned and moved to most recently
used (its TTL clock untouched); a stale entry is deleted and `undefined`
is returned. -/
def Cache.get (c : Cache) (now : Nat) (key : String) : Option CacheVal × Cache :=
  match c.findEntry key with
  | none => (none, c)
  | some e =>
    if entryStale now e then (none, c.removeKey key)
    else (some e.val, { c with entries := e :: (c.removeKey key).entries })

/-- `cache.set(key, value, { ttl })`: overwrite an existing key in place
(restarting its TTL clock), or insert a new one, evicting the least
recently used entry when the cache is at capacity. Without an explicit
`ttl` the constructor's default applies. -/
def Cache.set (c : Cache) (now : Nat) (key : String) (v : CacheVal)
    (ttl : Option Nat) : Cache :=
  let e : Entry := ⟨key, v, now, ttl.getD c.defaultTtl⟩
  match c.findEntry key with
  | some _ => { c with entries := e :: (c.removeKey key).entries }
  | none =>
    let rest := if c.max ≤ c.entries.length then c.entries.dropLast else c.entries
    { c with entries := e :: rest }

/-- The configuration fields the worker (src/unnamed/part_003) reads;
optional numeric fields keep the JS `x || default` fallback at each use
site, and `rateLimiting` is the truthiness of
`this.config.cloudflare?.rateLimiting`. -/
structure CfConfig where
  endpoints : List String
  secret : Option String
  difficulty : Option Nat
  timestampTolerance : Option Nat
  cacheSize : Option Nat
  hmacAlgorithm : Option HmacAlgo
  rateLimiting : Bool
  requestsPerMinute : Option Nat
deriving DecidableEq

/-- The `nonceCache` the `PowCloudflare` constructor builds:
`max = cacheSize || 10000`, `ttl = (timestampTolerance || 30) * 1000`. -/
def powCloudflareCache (cfg : CfConfig) : Cache :=
  { max := jsOrNat cfg.cacheSize 10000
    defaultTtl := (jsOrNat cfg.timestampTolerance 30) * 1000
    entries := [] }

/-- The projection of an incoming request that the worker reads: the URL
path (`new URL(request.url).pathname`) and the headers it consults
(`none` means the header is absent). -/
structure Request where
  path : String
  timestamp : Option String
  nonce : Option String
  context : Option String
  stamp : Option String
  cfConnectingIp : Option String
  xHmac : Option String
deriving DecidableEq, Repr

/-- The worker's decision: an error `Response(body, { status })`, or the
`null` return that tells the caller to pass the request to the origin. -/
inductive HandleResult
  | response (status : Nat) (body : String)
  | pass
deriving DecidableEq, Repr

/-- The value `this.nonceCache.get(rateKey) || 0` evaluates to: counters
are stored as numbers; a boolean `true` marker would coerce to `1` in the
subsequent arithmetic. -/
def countOf : Option CacheVal → Nat
  | none => 0
  | some (.count n) => n
  | some .mark => 1

/-- `PowCloudflare.checkRateLimit` (src/unnamed/part_003, lines 112-126):
read the per-IP counter, report exceeded at the ceiling, otherwise store
the incremented counter with a fresh one-minute TTL. Returns
`(limitExceeded, cache after the call)`. -/
def checkRateLimit (cfg : CfConfig) (c : Cache) (nowMs : Nat)
    (clientIp : String) : Bool × Cache :=
  let requestsPerMinute := jsOrNat cfg.requestsPerMinute 30
  let rateKey := "rate:" ++ clientIp
  let got := c.get nowMs rateKey
  let currentCount := countOf got.1
  if requestsPerMinute ≤ currentCount then (true, got.2)
  else (false, got.2.set nowMs rateKey (.count (currentCount + 1)) (some 60000))

/-- `PowCloudflare.handleRequest` (src/unnamed/part_003, lines 18-84).
`nowMs` is `Date.now()`; the ordered pipeline short-circuits with an error
response, and the final `return null` is `HandleResult.pass`. Note that
the source builds a `modifiedRequest` carrying the `X-HMAC` header just
before returning and then returns `null`, discarding it (see
`modifiedRequest` below). -/
def handleRequest (h : HashModel) (cfg : CfConfig) (c : Cache) (nowMs : Nat)
    (req : Request) : HandleResult × Cache :=
  let endpoint := req.path
  if !isProtectedEndpoint cfg.endpoints endpoint then (.pass, c)
  else if !(jsTruthy req.timestamp && jsTruthy req.nonce &&
            jsTruthy req.context && jsTruthy req.stamp) then
    (.response 400 "Missing PoW headers", c)
  else
    let timestamp := req.timestamp.getD ""
    let nonce := req.nonce.getD ""
    let context := req.context.getD ""
    let stamp := req.stamp.getD ""
    let now : Int := (nowMs / 1000 : Nat)
    let tolerance : Int := (jsOrNat cfg.timestampTolerance 30 : Nat)
    match parseInt10 timestamp with
    | none => (.response 403 "Timestamp expired or invalid", c)
    | some timestampNum =>
      if tolerance < now - timestampNum then
        (.response 403 "Timestamp expired or invalid", c)
      else
        let nonceKey := timestamp ++ ":" ++ nonce
        if c.has nowMs nonceKey then (.response 403 "Nonce already used", c)
        else
          let dataToHash := endpoint ++ ":" ++ timestamp ++ ":" ++ nonce ++ ":" ++ context
          let validStamp := h.sha256 dataToHash
          if validStamp ≠ stamp then (.response 403 "Invalid PoW stamp", c)
          else if !hasLeadingZeros stamp (jsOrNat cfg.difficulty 4) then
            (.response 403 "Insufficient PoW difficulty", c)
          else
            let c1 := c.set nowMs nonceKey .mark none
            if cfg.rateLimiting then
              let clientIp := jsOrStr req.cfConnectingIp ""
              let rateRes := checkRateLimit cfg c1 nowMs clientIp
              if rateRes.1 then (.response 429 "Rate limit exceeded", rateRes.2)
              else (.pass, rateRes.2)
            else (.pass, c1)

/-- The signed request `handleRequest` constructs just before its final
`return null`: the original request with
`X-HMAC = CryptoUtils.hmac(timestamp:nonce:context, secret)` set. The
source discards this value, so it never reaches the origin. -/
def modifiedRequest (h : HashModel) (cfg : CfConfig) (req : Request) : Request :=
  let hmacData := req.timestamp.getD "" ++ ":" ++ req.nonce.getD "" ++ ":" ++
    req.context.getD ""
  let hmacSignature := cryptoHmac h hmacData (jsOrStr cfg.secret "") cfg.hmacAlgorithm
  { req with xHmac := some hmacSignature }

/-- What the example worker (src/examples/cloudflare-worker-universal.js)
sends to the origin: the error response ends the exchange, and on `null`
it forwards the ORIGINAL `request` via `fetch(request)`. -/
def forwardedToOrigin (req : Request) : HandleResult → Option Request
  | .pass => some req
  | .response _ _ => none

/-- The inbound headers `PowServer.expressMiddleware` consults (Express
lower-cases header names; `none` means absent). The middleware never reads
`x-stamp`; the field is carried to state that fact. -/
structure ServerHeaders where
  xHmac : Option String
  xTimestamp : Option String
  xNonce : Option String
  xContext : Option String
  xStamp : Option String
deriving DecidableEq, Repr

/-- A middleware decision: `next()` admits the request to the application,
`respond` is `res.status(code).send(body)`. -/
inductive MwResult
  | next
  | respond (status : Nat) (body : String)
deriving DecidableEq, Repr

/-- The configuration fields the origin verifier reads; `strictMode` is the
truthiness of `this.config.server?.strictMode` after merging. -/
structure ServerConfig where
  endpoints : List String
  secret : Option String
  hmacAlgorithm : Option HmacAlgo
  strictMode : Bool
deriving DecidableEq

/-- `PowServer.expressMiddleware` (src/src/server.ts, lines 15-55): skip
non-protected paths; without an `x-hmac` header reject 403 in strict mode
and admit otherwise; with the signature present require `x-timestamp`,
`x-nonce` and `x-context` (400 when one is missing), recompute
`hmac(timestamp:nonce:context, secret)` and compare. -/
def expressMiddleware (h : HashModel) (cfg : ServerConfig) (path : String)
    (hd : ServerHeaders) : MwResult :=
  if !isProtectedEndpoint cfg.endpoints path then .next
  else if !jsTruthy hd.xHmac then
    if cfg.strictMode then .respond 403 "Missing HMAC signature" else .next
  else if !(jsTruthy hd.xTimestamp && jsTruthy hd.xNonce && jsTruthy hd.xContext) then
    .respond 400 "Missing required headers"
  else
    let hmacData := hd.xTimestamp.getD "" ++ ":" ++ hd.xNonce.getD "" ++ ":" ++
      hd.xContext.getD ""
    let expectedHmac := cryptoHmac h hmacData (jsOrStr cfg.secret "") cfg.hmacAlgorithm
    if hd.xHmac.getD "" ≠ expectedHmac then .respond 403 "Invalid HMAC signature"
    else .next

/-- The nested `client` options of `PowShieldConfig` (src/src/config.ts). -/
structure ClientOpts where
  maxRetries : Option Nat
  requestIntegration : Option String
deriving DecidableEq

/-- The nested `cloudflare` options of `PowShieldConfig`. -/
structure CloudflareOpts where
  rateLimiting : Option Bool
  requestsPerMinute : Option Nat
deriving DecidableEq

/-- The nested `server` options of `PowShieldConfig`. -/
structure ServerOpts where
  framework : Option String
  strictMode : Option Bool
deriving DecidableEq

/-- `PowShieldConfig` (src/src/config.ts): every field optional, `none`
standing for an absent key. -/
structure PowShieldConfig where
  endpoints : Option (List String)
  secret : Option String
  difficulty : Option Nat
  timestampTolerance : Option Nat
  cacheType : Option String
  cacheSize : Option Nat
  contextGenerator : Option String
  hmacAlgorithm : Option HmacAlgo
  client : Option ClientOpts
  cloudflare : Option CloudflareOpts
  server : Option ServerOpts
deriving DecidableEq

/-- `DEFAULT_CONFIG` (src/src/config.ts, lines 45-62). -/
def DEFAULT_CONFIG : PowShieldConfig :=
  { endpoints := none
    secret := none
    difficulty := some 4
    timestampTolerance := some 30
    cacheType := some "memory"
    cacheSize := some 10000
    contextGenerator := some "userAgent"
    hmacAlgorithm := some .sha256
    client := some { maxRetries := some 5, requestIntegration := some "fetch" }
    cloudflare := some { rateLimiting := some true, requestsPerMinute := some 30 }
    server := some { framework := some "express", strictMode := some true } }

/-- The validation context parameter of `validateAndMergeConfig`; the
declared default is `'client'`. -/
inductive ConfigContext
  | client
  | server
  | cloudflare
deriving DecidableEq

/-- `{ ...DEFAULT_CONFIG.client, ...config.client }`. -/
def mergeClientOpts (d u : ClientOpts) : ClientOpts :=
  { maxRetries := u.maxRetries <|> d.maxRetries
    requestIntegration := u.requestIntegration <|> d.requestIntegration }

/-- `{ ...DEFAULT_CONFIG.cloudflare, ...config.cloudflare }`. -/
def mergeCloudflareOpts (d u : CloudflareOpts) : CloudflareOpts :=
  { rateLimiting := u.rateLimiting <|> d.rateLimiting
    requestsPerMinute := u.requestsPerMinute <|> d.requestsPerMinute }

/-- `{ ...DEFAULT_CONFIG.server, ...config.server }`. -/
def mergeServerOpts (d u : ServerOpts) : ServerOpts :=
  { framework := u.framework <|> d.framework
    strictMode := u.strictMode <|> d.strictMode }

/-- `validateAndMergeConfig` (src/src/config.ts, lines 68-108): start from
the defaults, copy the caller's top-level keys, spread-merge the three
nested objects, then validate. The thrown `Error`s become `Except.error`
with the message. The secret is required only when the `context` argument
is `'server'` or `'cloudflare'`; the empty string counts as missing
(JS falsiness of `!mergedConfig.secret`). -/
def validateAndMergeConfig (config : PowShieldConfig)
    (context : ConfigContext) : Except String PowShieldConfig :=
  let mergedConfig : PowShieldConfig :=
    { endpoints := config.endpoints <|> DEFAULT_CONFIG.endpoints
      secret := config.secret <|> DEFAULT_CONFIG.secret
      difficulty := config.difficulty <|> DEFAULT_CONFIG.difficulty
      timestampTolerance := config.timestampTolerance <|> DEFAULT_CONFIG.timestampTolerance
      cacheType := config.cacheType <|> DEFAULT_CONFIG.cacheType
      cacheSize := config.cacheSize <|> DEFAULT_CONFIG.cacheSize
      contextGenerator := config.contextGenerator <|> DEFAULT_CONFIG.contextGenerator
      hmacAlgorithm := config.hmacAlgorithm <|> DEFAULT_CONFIG.hmacAlgorithm
      client :=
        match config.client, DEFAULT_CONFIG.client with
        | some u, some d => some (mergeClientOpts d u)
        | some u, none => some u
        | none, d => d
      cloudflare :=
        match config.cloudflare, DEFAULT_CONFIG.cloudflare with
        | some u, some d => some (mergeCloudflareOpts d u)
        | some u, none => some u
        | none, d => d
      server :=
        match config.server, DEFAULT_CONFIG.server with
        | some u, some d => some (mergeServerOpts d u)
        | some u, none => some u
        | none, d => d }
  if mergedConfig.endpoints.getD [] = [] then
    .error "PoW Shield requires at least one endpoint to protect"
  else if (context = .server ∨ context = .cloudflare) ∧ jsTruthy mergedConfig.secret = false then
    .error "PoW Shield requires a shared secret for HMAC generation"
  else
    .ok mergedConfig

/-- `PowServer`'s constructor (src/src/server.ts, lines 7-9) calls
`validateAndMergeConfig(config)` with no context argument, so the declared
default context `'client'` applies. -/
def powServerInit (config : PowShieldConfig) : Except String PowShieldConfig :=
  validateAndMergeConfig config .client

/-- `PowClient`'s constructor (src/src/client.ts, lines 8-10) passes the
context `'client'` explicitly. -/
def powClientInit (config : PowShieldConfig) : Except String PowShieldConfig :=
  validateAndMergeConfig config .client

/-- The bounded solving loop of `PowClient.generateValidPow`
(src/src/client.ts, lines 72-104). `nonces i` is the random nonce
`CryptoUtils.generateNonce()` draws on attempt index `i`; `remaining` is
the attempt budget still available. Returns the solver's result together
with the final value of the `attempts` counter; `none` is the
`Failed to generate valid PoW` error the source throws. -/
def powLoop (h : HashModel) (endpoint timestamp context : String)
    (difficulty : Nat) (nonces : Nat → String) :
    Nat → Nat → Option (String × String) × Nat
  | attempts, 0 => (none, attempts)
  | attempts, remaining + 1 =>
    let nonce := nonces attempts
    let dataToHash := endpoint ++ ":" ++ timestamp ++ ":" ++ nonce ++ ":" ++ context
    let stamp := h.sha256 dataToHash
    if hasLeadingZeros stamp difficulty then (some (nonce, stamp), attempts + 1)
    else powLoop h endpoint timestamp context difficulty nonces (attempts + 1) remaining

/-- `PowClient.generateValidPow`: difficulty `config.difficulty || 4`,
budget `(config.client?.maxRetries || 5) * 100` attempts. -/
def generateValidPow (h : HashModel) (difficultyOpt maxRetriesOpt : Option Nat)
    (endpoint timestamp context : String) (nonces : Nat → String) :
    Option (String × String) × Nat :=
  powLoop h endpoint timestamp context (jsOrNat difficultyOpt 4) nonces 0
    ((jsOrNat maxRetriesOpt 5) * 100)

/-! ## Concrete instances used by the closed theorems and witnesses -/

/-- A small executable stand-in for the abstract digest primitives; the
constant SHA-256 output has four leading zero bits. -/
def tHash : HashModel :=
  { sha256 := fun _ => "00aa"
    hmacSHA256 := fun d s => "hm:" ++ d ++ ":" ++ s
    hmacSHA512 := fun d s => "HM:" ++ d ++ ":" ++ s }

/-- A worker configuration protecting `/api/data`. -/
def cfgA : CfConfig :=
  { endpoints := ["/api/data"], secret := some "s", difficulty := some 4,
    timestampTolerance := some 30, cacheSize := some 100, hmacAlgorithm := none,
    rateLimiting := true, requestsPerMinute := some 30 }

/-- A request whose proof fields validate under `tHash` and `cfgA` at any
clock near second 1000. -/
def reqA : Request :=
  { path := "/api/data", timestamp := some "1000", nonce := some "n1",
    context := some "ctx", stamp := some "00aa", cfConnectingIp := some "1.2.3.4",
    xHmac := none }

/-- `cfgA` with the rate ceiling lowered to 2 requests per minute. -/
def cfgC : CfConfig := { cfgA with requestsPerMinute := some 2 }

/-- The cache after one admission of identity `a` at millisecond 1000. -/
def c7cache1 : Cache := (checkRateLimit cfgC (powCloudflareCache cfgC) 1000 "a").2

/-- The cache after a second admission of `a` at millisecond 50000. -/
def c7cache2 : Cache := (checkRateLimit cfgC c7cache1 50000 "a").2

/-- A user configuration with endpoints but no secret. -/
def cfg8 : PowShieldConfig :=
  { endpoints := some ["/api/test"], secret := none, difficulty := none,
    timestampTolerance := none, cacheType := none, cacheSize := none,
    contextGenerator := none, hmacAlgorithm := none, client := none,
    cloudflare := none, server := none }

/-- The error message of a configuration result, `none` on success. -/
def errMsg {α : Type} : Except String α → Option String
  | .error m => some m
  | .ok _ => none

/-- A strict origin configuration protecting `/api/test`. -/
def cfgS : ServerConfig :=
  { endpoints := ["/api/test"], secret := some "s", hmacAlgorithm := none,
    strictMode := true }

/-- Headers carrying a matching trust signature and the timestamp, nonce and
context fields, but no `x-stamp`. -/
def hdS : ServerHeaders :=
  { xHmac := some "hm:1:2:3:s", xTimestamp := some "1", xNonce := some "2",
    xContext := some "3", xStamp := none }

/-! ## Theorems -/

/-- C1: the claim says a fully validated request is forwarded to the origin
carrying an `X-HMAC` header over `timestamp:nonce:context`. The code
contradicts its own comments (`Create and return a new request to be sent
to the origin`, and the example worker's `The request now includes the
X-HMAC header`): `handleRequest` builds the signed request, discards it
and returns `null`, so the example worker forwards the ORIGINAL request,
which carries no `X-HMAC` header at all. Evaluated here on a concrete
fully-valid request: validation passes, the forwarded request is the
unmodified original with `xHmac = none`, while the discarded
`modifiedRequest` is the one the spec describes. -/
theorem hmac_header_never_forwarded :
    (handleRequest tHash cfgA (powCloudflareCache cfgA) 1000000 reqA).1 = .pass
  ∧ forwardedToOrigin reqA (handleRequest tHash cfgA (powCloudflareCache cfgA) 1000000 reqA).1 = some reqA
  ∧ reqA.xHmac = none
  ∧ (modifiedRequest tHash cfgA reqA).xHmac = some "hm:1000:n1:ctx:s"
  ∧ modifiedRequest tHash cfgA reqA ≠ reqA := by
  refine ⟨by decide, by decide, rfl, rfl, by decide⟩

/-- C8: the claim says initialization fails fast iff endpoints are
missing/empty or the secret is missing in a verifying context (server-side
verifier, edge validator). The endpoint check matches, and
`validateAndMergeConfig` does reject a missing secret when handed the
`'server'` or `'cloudflare'` context — but `PowServer`'s constructor calls
it without a context argument, so the default `'client'` applies and a
server-side verifier constructs happily with no secret, contradicting the
repository's own config test (which expects the default-context call to
throw on a missing secret). -/
theorem init_secret_check_unreachable :
    (powServerInit cfg8).toBool = true
  ∧ errMsg (validateAndMergeConfig cfg8 .server) =
      some "PoW Shield requires a shared secret for HMAC generation"
  ∧ errMsg (validateAndMergeConfig cfg8 .cloudflare) =
      some "PoW Shield requires a shared secret for HMAC generation"
  ∧ powClientInit cfg8 = powServerInit cfg8
  ∧ errMsg (validateAndMergeConfig { cfg8 with endpoints := some [] } .client) =
      some "PoW Shield requires at least one endpoint to protect"
  ∧ errMsg (validateAndMergeConfig { cfg8 with endpoints := none } .client) =
      some "PoW Shield requires at least one endpoint to protect" := by
  refine ⟨rfl, by decide, by decide, rfl, by decide, by decide⟩

/-- C2 counterexample: the claim says the origin verifier rejects with 400
whenever any of the four proof fields is absent while the trust signature
is present. Concretely: signature present and matching, `x-stamp` absent,
the other three fields present — the middleware admits the request
(`next()`), it does not reject with 400; `expressMiddleware` never reads
`x-stamp`. -/
theorem origin_admits_missing_stamp :
    hdS.xStamp = none
  ∧ jsTruthy hdS.xHmac = true
  ∧ isProtectedEndpoint cfgS.endpoints "/api/test" = true
  ∧ expressMiddleware tHash cfgS "/api/test" hdS = .next := by
  refine ⟨rfl, by decide, by decide, by decide⟩

/-- C4 counterexample: the claim says an unparsable timestamp is rejected
with a client error (400). Concretely, with all four headers present and
`X-Timestamp = "abc"` (which `parseInt` cannot parse), the worker returns
status 403 (`Timestamp expired or invalid`), not 400: the source folds the
`isNaN` case into the same 403 branch as staleness. -/
theorem unparsable_timestamp_rejects_403_not_400 :
    parseInt10 "abc" = none
  ∧ (handleRequest tHash cfgA (powCloudflareCache cfgA) 1000000
      { reqA with timestamp := some "abc" }).1 =
      .response 403 "Timestamp expired or invalid"
  ∧ (403 : Nat) ≠ 400 := by
  refine ⟨by decide, by decide, by decide⟩

/-- C7 counterexample: the claim says the 60-second rate window is measured
from the FIRST increment and the count resets exactly when that entry
expires 60 seconds after the first increment. Concretely, with a ceiling
of 2: admissions at milliseconds 1000 and 50000, then a request at 70000 —
more than 60 seconds after the first increment, so under the claim the
count has reset and the request is admitted. The code instead still holds
count 2 (the second `set` refreshed the TTL clock to 50000) and reports
the limit exceeded. -/
theorem rate_window_not_fixed :
    (checkRateLimit cfgC (powCloudflareCache cfgC) 1000 "a").1 = false
  ∧ (checkRateLimit cfgC c7cache1 50000 "a").1 = false
  ∧ 60000 < 70000 - 1000
  ∧ (checkRateLimit cfgC c7cache2 70000 "a").1 = true
  ∧ (c7cache2.get 70000 "rate:a").1 = some (.count 2) := by
  refine ⟨by decide, by decide, by decide, by decide, by decide⟩

/-! ## Difficulty check (C5) -/

/-- The check loop accepts iff the string has at least `b` characters and
the first `b` of them are `'0'`. -/
lemma leadingZeroLoop_eq (b : Nat) : ∀ l : List Char,
    leadingZeroLoop l b = (decide (b ≤ l.length) && (l.take b).all (fun c => c == '0')) := by
  induction b with
  | zero => intro l; simp [leadingZeroLoop]
  | succ n ih =>
    intro l
    cases l with
    | nil => simp [leadingZeroLoop]
    | cons c rest =>
      by_cases hc : c = '0'
      · simp [leadingZeroLoop, hc, ih rest, Nat.succ_le_succ_iff]
      · simp [leadingZeroLoop, hc]

/-- Over hex characters the JS binary string is the nibble bit string
rendered through `bitChar`. -/
lemma binary_eq_bits : ∀ l : List Char, (∀ c ∈ l, (hexVal c).isSome = true) →
    (l.map jsNibbleChars).flatten =
      ((l.map (fun c =>
        [((hexVal c).getD 0).testBit 3, ((hexVal c).getD 0).testBit 2,
         ((hexVal c).getD 0).testBit 1, ((hexVal c).getD 0).testBit 0])).flatten).map bitChar := by
  intro l hl
  induction l with
  | nil => simp
  | cons c rest ih =>
    have hc : (hexVal c).isSome = true := hl c (List.mem_cons_self c rest)
    have hrest := ih (fun x hx => hl x (List.mem_cons_of_mem c hx))
    cases hv : hexVal c with
    | none => rw [hv] at hc; simp at hc
    | some v => simp [jsNibbleChars, hv, hrest]

/-- Each character contributes exactly four bits. -/
lemma bits_length : ∀ l : List Char,
    ((l.map (fun c =>
      [((hexVal c).getD 0).testBit 3, ((hexVal c).getD 0).testBit 2,
       ((hexVal c).getD 0).testBit 1, ((hexVal c).getD 0).testBit 0])).flatten).length =
      4 * l.length := by
  intro l
  induction l with
  | nil => simp
  | cons c rest ih =>
    simp only [List.map_cons, List.flatten_cons, List.length_append, ih,
      List.length_cons, List.length_nil]
    omega

/-- C5: `CryptoUtils.hasLeadingZeros(d, b)` is true iff the first `b` bits
of the nibble-wise (4 bits per hex character) binary expansion of `d` are
all zero — so it is true for `b = 0` (including on the empty digest),
false whenever `b` exceeds `4 * len(d)`, and it counts bits rather than
hex characters: the digest `"00a0"` passes `b = 8` and fails `b = 9`. -/
theorem hasLeadingZeros_counts_bits (d : String) (b : Nat) (hd : isHexString d = true) :
    (hasLeadingZeros d b = true ↔
      b ≤ 4 * d.length ∧ (nibbleBits d).take b = List.replicate b false)
  ∧ hasLeadingZeros d 0 = true
  ∧ hasLeadingZeros "" 0 = true
  ∧ (4 * d.length < b → hasLeadingZeros d b = false)
  ∧ hasLeadingZeros "00a0" 8 = true
  ∧ hasLeadingZeros "00a0" 9 = false := by
  have hhex : ∀ c ∈ d.toList, (hexVal c).isSome = true := by
    intro c hcmem
    exact List.all_eq_true.1 hd c hcmem
  have hlen : d.toList.length = d.length := rfl
  have hbits := binary_eq_bits d.toList hhex
  have hblen := bits_length d.toList
  have hmain : hasLeadingZeros d b = true ↔
      b ≤ 4 * d.length ∧ (nibbleBits d).take b = List.replicate b false := by
    rw [hasLeadingZeros, leadingZeroLoop_eq, hbits]
    rw [show (nibbleBits d) = ((d.toList.map (fun c =>
      [((hexVal c).getD 0).testBit 3, ((hexVal c).getD 0).testBit 2,
       ((hexVal c).getD 0).testBit 1, ((hexVal c).getD 0).testBit 0])).flatten) from rfl]
    set bits := (d.toList.map (fun c =>
      [((hexVal c).getD 0).testBit 3, ((hexVal c).getD 0).testBit 2,
       ((hexVal c).getD 0).testBit 1, ((hexVal c).getD 0).testBit 0])).flatten with hbitsdef
    rw [List.length_map, hblen, hlen]
    constructor
    · intro h
      rw [Bool.and_eq_true] at h
      have hb : b ≤ 4 * d.length := of_decide_eq_true h.1
      refine ⟨hb, ?_⟩
      have h2 := h.2
      rw [← List.map_take] at h2
      have hall : ∀ x ∈ bits.take b, x = false := by
        intro x hx
        have hmem : bitChar x ∈ (bits.take b).map bitChar := List.mem_map_of_mem bitChar hx
        have := List.all_eq_true.1 h2 (bitChar x) hmem
        cases x with
        | false => rfl
        | true => simp [bitChar] at this
      refine List.eq_replicate_iff.2 ⟨?_, hall⟩
      rw [List.length_take]
      omega
    · rintro ⟨hb, hrep⟩
      rw [← List.map_take, hrep, Bool.and_eq_true]
      refine ⟨decide_eq_true hb, ?_⟩
      simp [List.all_eq_true, bitChar]
  refine ⟨hmain, ?_, by decide, ?_, by decide, by decide⟩
  · rw [hasLeadingZeros, leadingZeroLoop_eq]
    simp
  · intro hgt
    rw [Bool.eq_false_iff]
    intro hcontra
    have := (hmain.1 hcontra).1
    omega

/-- Witness for C5 at the concrete digest `"00a0"` and `b = 8`. -/
theorem hasLeadingZeros_counts_bits_witness :
    isHexString "00a0" = true
  ∧ (hasLeadingZeros "00a0" 8 = true ↔
      8 ≤ 4 * String.length "00a0" ∧ (nibbleBits "00a0").take 8 = List.replicate 8 false) :=
  ⟨by decide, (hasLeadingZeros_counts_bits "00a0" 8 (by decide)).1⟩

/-! ## Origin verifier (C2) and timestamp step (C4) -/

/-- C2 (amended): for every request to a protected endpoint at the origin
verifier, if the trust signature is absent the middleware rejects with 403
in strict mode and admits unconditionally otherwise; if any of the three
proof fields it reads (timestamp, nonce, context) is absent while the
signature is present it rejects with 400; with the signature and those
three fields present it recomputes the HMAC over
`timestamp:nonce:context` with the shared secret, admits on match and
rejects with 403 on mismatch. The stamp field is never inspected, so its
absence alone does not cause rejection. -/
theorem expressMiddleware_characterization (h : HashModel) (cfg : ServerConfig)
    (path : String) (hd : ServerHeaders)
    (hprot : isProtectedEndpoint cfg.endpoints path = true) :
    (jsTruthy hd.xHmac = false →
      expressMiddleware h cfg path hd =
        (if cfg.strictMode then .respond 403 "Missing HMAC signature" else .next))
  ∧ (jsTruthy hd.xHmac = true →
      (jsTruthy hd.xTimestamp && jsTruthy hd.xNonce && jsTruthy hd.xContext) = false →
      expressMiddleware h cfg path hd = .respond 400 "Missing required headers")
  ∧ (jsTruthy hd.xHmac = true →
      (jsTruthy hd.xTimestamp && jsTruthy hd.xNonce && jsTruthy hd.xContext) = true →
      ((hd.xHmac.getD "" =
          cryptoHmac h (hd.xTimestamp.getD "" ++ ":" ++ hd.xNonce.getD "" ++ ":" ++
            hd.xContext.getD "") (jsOrStr cfg.secret "") cfg.hmacAlgorithm →
        expressMiddleware h cfg path hd = .next)
      ∧ (hd.xHmac.getD "" ≠
          cryptoHmac h (hd.xTimestamp.getD "" ++ ":" ++ hd.xNonce.getD "" ++ ":" ++
            hd.xContext.getD "") (jsOrStr cfg.secret "") cfg.hmacAlgorithm →
        expressMiddleware h cfg path hd = .respond 403 "Invalid HMAC signature")))
  ∧ (∀ s, expressMiddleware h cfg path { hd with xStamp := s } =
      expressMiddleware h cfg path hd) := by
  refine ⟨?_, ?_, ?_, ?_⟩
  · intro h1
    simp [expressMiddleware, hprot, h1]
  · intro h1 h2
    simp [expressMiddleware, hprot, h1, h2]
  · intro h1 h2
    constructor
    · intro h3
      simp [expressMiddleware, hprot, h1, h2, h3]
    · intro h3
      simp [expressMiddleware, hprot, h1, h2, h3]
  · intro s
    cases hd
    rfl

/-- Witness for C2 (amended) on the strict configuration `cfgS`: the
matching-signature branch admits the request. -/
theorem expressMiddleware_characterization_witness :
    expressMiddleware tHash cfgS "/api/test" hdS = .next :=
  ((expressMiddleware_characterization tHash cfgS "/api/test" hdS (by decide)).2.2.1
    (by decide) (by decide)).1 (by decide)

/-- C4 (amended): for every protected request with all four headers present,
the timestamp step rejects with 403 (not 400: the `isNaN` case shares the
staleness branch) when the timestamp does not parse as an integer, rejects
with 403 when `now - timestamp` exceeds the configured tolerance, and does
not reject at this step when `now - timestamp ≤ tolerance` — in particular
`now - timestamp = tolerance` passes the step, `tolerance + 1` fails, and
a future timestamp is never rejected here. -/
theorem timestamp_freshness_step (h : HashModel) (cfg : CfConfig) (c : Cache)
    (nowMs : Nat) (req : Request)
    (hprot : isProtectedEndpoint cfg.endpoints req.path = true)
    (hhd : (jsTruthy req.timestamp && jsTruthy req.nonce &&
            jsTruthy req.context && jsTruthy req.stamp) = true) :
    (parseInt10 (req.timestamp.getD "") = none →
      (handleRequest h cfg c nowMs req).1 = .response 403 "Timestamp expired or invalid")
  ∧ (∀ tsv : Int, parseInt10 (req.timestamp.getD "") = some tsv →
      (((jsOrNat cfg.timestampTolerance 30 : Nat) : Int) <
          ((nowMs / 1000 : Nat) : Int) - tsv →
        (handleRequest h cfg c nowMs req).1 = .response 403 "Timestamp expired or invalid")
      ∧ (((nowMs / 1000 : Nat) : Int) - tsv ≤ ((jsOrNat cfg.timestampTolerance 30 : Nat) : Int) →
        (handleRequest h cfg c nowMs req).1 ≠ .response 403 "Timestamp expired or invalid")) := by
  refine ⟨?_, ?_⟩
  · intro hparse
    simp [handleRequest, hprot, hhd, hparse]
  · intro tsv hparse
    constructor
    · intro hstale
      simp only [handleRequest, hprot, Bool.not_true, Bool.false_eq_true, if_false,
        hhd, hparse]
      rw [if_pos hstale]
    · intro hfresh
      have hnot : ¬ (((jsOrNat cfg.timestampTolerance 30 : Nat) : Int) <
          ((nowMs / 1000 : Nat) : Int) - tsv) := not_lt.2 hfresh
      simp only [handleRequest, hprot, hhd, hparse, Bool.not_true, Bool.false_eq_true,
        if_false, if_neg hnot]
      split
      · simp
      · split
        · simp
        · split
          · simp
          · split
            · split
              · simp
              · simp
            · simp

/-- Witness for C4 (amended): the unparsable-timestamp branch evaluated on a
concrete request. -/
theorem timestamp_freshness_step_witness :
    (handleRequest tHash cfgA (powCloudflareCache cfgA) 1000000
      { reqA with timestamp := some "abc" }).1 =
      .response 403 "Timestamp expired or invalid" :=
  (timestamp_freshness_step tHash cfgA (powCloudflareCache cfgA) 1000000
    { reqA with timestamp := some "abc" } (by decide) (by decide)).1 (by decide)

/-! ## Replay behavior (C3) -/

/-- A JS `x || d` fallback with a nonzero default never yields zero. -/
lemma jsOrNat_ne_zero {o : Option Nat} {d : Nat} (hd : d ≠ 0) : jsOrNat o d ≠ 0 := by
  cases o with
  | none => simpa [jsOrNat] using hd
  | some n =>
    by_cases hn : n = 0
    · simpa [jsOrNat, hn] using hd
    · simp [jsOrNat, hn]

/-- A fully valid request on a validator with rate limiting disabled passes
and marks its `timestamp:nonce` key in the cache. -/
lemma handleRequest_valid_pass
    (h : HashModel) (cfg : CfConfig) (c : Cache) (nowMs : Nat) (req : Request)
    (ts nonce ctx : String) (tsv : Int)
    (hprot : isProtectedEndpoint cfg.endpoints req.path = true)
    (hts : req.timestamp = some ts)
    (hn : req.nonce = some nonce)
    (hc : req.context = some ctx)
    (hs : req.stamp = some (h.sha256 (req.path ++ ":" ++ ts ++ ":" ++ nonce ++ ":" ++ ctx)))
    (hts1 : ts ≠ "") (hn1 : nonce ≠ "") (hc1 : ctx ≠ "")
    (hs1 : h.sha256 (req.path ++ ":" ++ ts ++ ":" ++ nonce ++ ":" ++ ctx) ≠ "")
    (hparse : parseInt10 ts = some tsv)
    (hfresh : ((nowMs / 1000 : Nat) : Int) - tsv ≤
      ((jsOrNat cfg.timestampTolerance 30 : Nat) : Int))
    (hseen : c.has nowMs (ts ++ ":" ++ nonce) = false)
    (hdiff : hasLeadingZeros (h.sha256 (req.path ++ ":" ++ ts ++ ":" ++ nonce ++ ":" ++ ctx))
      (jsOrNat cfg.difficulty 4) = true)
    (hrate : cfg.rateLimiting = false) :
    handleRequest h cfg c nowMs req =
      (.pass, c.set nowMs (ts ++ ":" ++ nonce) .mark none) := by
  have hnot : ¬ (((jsOrNat cfg.timestampTolerance 30 : Nat) : Int) <
      ((nowMs / 1000 : Nat) : Int) - tsv) := not_lt.2 hfresh
  have htr : (jsTruthy (some ts) && jsTruthy (some nonce) && jsTruthy (some ctx) &&
      jsTruthy (some (h.sha256 (req.path ++ ":" ++ ts ++ ":" ++ nonce ++ ":" ++ ctx)))) = true := by
    simp [jsTruthy, hts1, hn1, hc1, hs1]
  simp only [handleRequest, hprot, Bool.not_true, Bool.false_eq_true, if_false,
    hts, hn, hc, hs, htr, Option.getD_some, hparse]
  rw [if_neg hnot]
  simp only [hseen, Bool.false_eq_true, if_false]
  rw [if_neg (fun hne => hne rfl)]
  simp only [hdiff, Bool.not_true, Bool.false_eq_true, if_false, hrate]

/-- A request whose `timestamp:nonce` key is live in the cache is rejected
as a replay, leaving the cache untouched. -/
lemma handleRequest_replay
    (h : HashModel) (cfg : CfConfig) (c : Cache) (nowMs : Nat) (req : Request)
    (ts nonce ctx : String) (tsv : Int)
    (hprot : isProtectedEndpoint cfg.endpoints req.path = true)
    (hts : req.timestamp = some ts)
    (hn : req.nonce = some nonce)
    (hc : req.context = some ctx)
    (hs : req.stamp = some (h.sha256 (req.path ++ ":" ++ ts ++ ":" ++ nonce ++ ":" ++ ctx)))
    (hts1 : ts ≠ "") (hn1 : nonce ≠ "") (hc1 : ctx ≠ "")
    (hs1 : h.sha256 (req.path ++ ":" ++ ts ++ ":" ++ nonce ++ ":" ++ ctx) ≠ "")
    (hparse : parseInt10 ts = some tsv)
    (hfresh : ((nowMs / 1000 : Nat) : Int) - tsv ≤
      ((jsOrNat cfg.timestampTolerance 30 : Nat) : Int))
    (hseen : c.has nowMs (ts ++ ":" ++ nonce) = true) :
    handleRequest h cfg c nowMs req = (.response 403 "Nonce already used", c) := by
  have hnot : ¬ (((jsOrNat cfg.timestampTolerance 30 : Nat) : Int) <
      ((nowMs / 1000 : Nat) : Int) - tsv) := not_lt.2 hfresh
  have htr : (jsTruthy (some ts) && jsTruthy (some nonce) && jsTruthy (some ctx) &&
      jsTruthy (some (h.sha256 (req.path ++ ":" ++ ts ++ ":" ++ nonce ++ ":" ++ ctx)))) = true := by
    simp [jsTruthy, hts1, hn1, hc1, hs1]
  simp only [handleRequest, hprot, Bool.not_true, Bool.false_eq_true, if_false,
    hts, hn, hc, hs, htr, Option.getD_some, hparse]
  rw [if_neg hnot]
  simp only [hseen, if_true]

/-- C3: for every valid proof over a protected endpoint (rate limiting
disabled so only the replay path is exercised), submitting the identical
`(timestamp, nonce)` pair twice within the tolerance window yields an
admission followed by a 403 replay rejection, and submitting it a third
time after the cache entry's TTL (`tolerance * 1000` ms from the marking)
has elapsed yields an admission again. -/
theorem replay_pass_reject_pass
    (h : HashModel) (cfg : CfConfig) (req : Request)
    (ts nonce ctx : String) (tsv : Int) (now1 now2 now3 : Nat)
    (hprot : isProtectedEndpoint cfg.endpoints req.path = true)
    (hts : req.timestamp = some ts)
    (hn : req.nonce = some nonce)
    (hc : req.context = some ctx)
    (hs : req.stamp = some (h.sha256 (req.path ++ ":" ++ ts ++ ":" ++ nonce ++ ":" ++ ctx)))
    (hts1 : ts ≠ "") (hn1 : nonce ≠ "") (hc1 : ctx ≠ "")
    (hs1 : h.sha256 (req.path ++ ":" ++ ts ++ ":" ++ nonce ++ ":" ++ ctx) ≠ "")
    (hparse : parseInt10 ts = some tsv)
    (hdiff : hasLeadingZeros (h.sha256 (req.path ++ ":" ++ ts ++ ":" ++ nonce ++ ":" ++ ctx))
      (jsOrNat cfg.difficulty 4) = true)
    (hrate : cfg.rateLimiting = false)
    (hfresh1 : ((now1 / 1000 : Nat) : Int) - tsv ≤
      ((jsOrNat cfg.timestampTolerance 30 : Nat) : Int))
    (hfresh2 : ((now2 / 1000 : Nat) : Int) - tsv ≤
      ((jsOrNat cfg.timestampTolerance 30 : Nat) : Int))
    (hfresh3 : ((now3 / 1000 : Nat) : Int) - tsv ≤
      ((jsOrNat cfg.timestampTolerance 30 : Nat) : Int))
    (hlive : now2 - now1 ≤ (jsOrNat cfg.timestampTolerance 30) * 1000)
    (hstale : (jsOrNat cfg.timestampTolerance 30) * 1000 < now3 - now1) :
    (handleRequest h cfg (powCloudflareCache cfg) now1 req).1 = .pass
  ∧ (handleRequest h cfg
      (handleRequest h cfg (powCloudflareCache cfg) now1 req).2 now2 req).1 =
      .response 403 "Nonce already used"
  ∧ (handleRequest h cfg
      (handleRequest h cfg
        (handleRequest h cfg (powCloudflareCache cfg) now1 req).2 now2 req).2 now3 req).1 =
      .pass := by
  have httl : jsOrNat cfg.timestampTolerance 30 ≠ 0 := jsOrNat_ne_zero (by decide)
  have hhas0 : (powCloudflareCache cfg).has now1 (ts ++ ":" ++ nonce) = false := rfl
  have hcache1 : (powCloudflareCache cfg).set now1 (ts ++ ":" ++ nonce) .mark none =
      { max := jsOrNat cfg.cacheSize 10000
        defaultTtl := (jsOrNat cfg.timestampTolerance 30) * 1000
        entries := [⟨ts ++ ":" ++ nonce, .mark, now1,
          (jsOrNat cfg.timestampTolerance 30) * 1000⟩] } := by
    simp [Cache.set, Cache.findEntry, powCloudflareCache]
  have h1 := handleRequest_valid_pass h cfg (powCloudflareCache cfg) now1 req
    ts nonce ctx tsv hprot hts hn hc hs hts1 hn1 hc1 hs1 hparse hfresh1 hhas0 hdiff hrate
  have hhas2 : ((powCloudflareCache cfg).set now1 (ts ++ ":" ++ nonce) .mark none).has
      now2 (ts ++ ":" ++ nonce) = true := by
    rw [hcache1]
    simp [Cache.has, Cache.findEntry, entryStale, httl]
    omega
  have hhas3 : ((powCloudflareCache cfg).set now1 (ts ++ ":" ++ nonce) .mark none).has
      now3 (ts ++ ":" ++ nonce) = false := by
    rw [hcache1]
    simp [Cache.has, Cache.findEntry, entryStale, httl]
    omega
  have h2 := handleRequest_replay h cfg
    ((powCloudflareCache cfg).set now1 (ts ++ ":" ++ nonce) .mark none) now2 req
    ts nonce ctx tsv hprot hts hn hc hs hts1 hn1 hc1 hs1 hparse hfresh2 hhas2
  have h3 := handleRequest_valid_pass h cfg
    ((powCloudflareCache cfg).set now1 (ts ++ ":" ++ nonce) .mark none) now3 req
    ts nonce ctx tsv hprot hts hn hc hs hts1 hn1 hc1 hs1 hparse hfresh3 hhas3 hdiff hrate
  refine ⟨?_, ?_, ?_⟩
  · rw [h1]
  · rw [h1, h2]
  · rw [h1, h2, h3]

/-- `cfgA` with rate limiting disabled, for the replay scenario. -/
def cfgD : CfConfig := { cfgA with rateLimiting := false }

/-- Witness for C3 on concrete clocks: marking at ms 1000000, replay at
1000500 (within the 30000 ms TTL), re-admission at 1030500 (30500 ms after
the marking, with the timestamp still fresh in whole seconds). -/
theorem replay_pass_reject_pass_witness :
    (handleRequest tHash cfgD (powCloudflareCache cfgD) 1000000 reqA).1 = .pass
  ∧ (handleRequest tHash cfgD
      (handleRequest tHash cfgD (powCloudflareCache cfgD) 1000000 reqA).2 1000500 reqA).1 =
      .response 403 "Nonce already used"
  ∧ (handleRequest tHash cfgD
      (handleRequest tHash cfgD
        (handleRequest tHash cfgD (powCloudflareCache cfgD) 1000000 reqA).2
        1000500 reqA).2 1030500 reqA).1 = .pass :=
  replay_pass_reject_pass tHash cfgD reqA "1000" "n1" "ctx" 1000 1000000 1000500 1030500
    (by decide) rfl rfl rfl rfl (by decide) (by decide) (by decide) (by decide)
    (by decide) (by decide) rfl (by decide) (by decide) (by decide) (by decide) (by decide)

/-! ## Rate limiter (C6, C7) -/

/-- Appending to the same string on the left is injective. -/
lemma string_append_left_cancel {s t u : String} (h : s ++ t = s ++ u) : t = u := by
  have hd := congrArg String.data h
  simp only [String.data_append] at hd
  exact String.ext (List.append_cancel_left hd)

/-- `k` successive `checkRateLimit` calls for one identity at one clock
value, starting from cache `c0`. -/
def rateCalls (cfg : CfConfig) (ip : String) (now : Nat) (c0 : Cache) : Nat → Cache
  | 0 => c0
  | k + 1 => (checkRateLimit cfg (rateCalls cfg ip now c0 k) now ip).2

/-- After `k ≤ m` admissions from the empty cache the store holds exactly
the one rate entry with count `k` (none for `k = 0`). -/
lemma rateCalls_entries (cfg : CfConfig) (ip : String) (now : Nat) (m : Nat)
    (hm : cfg.requestsPerMinute = some m) (hm0 : m ≠ 0) :
    ∀ k, k ≤ m →
      rateCalls cfg ip now (powCloudflareCache cfg) k =
        { powCloudflareCache cfg with entries :=
            if k = 0 then [] else [⟨"rate:" ++ ip, .count k, now, 60000⟩] } := by
  have hjm : jsOrNat cfg.requestsPerMinute 30 = m := by
    rw [hm]; simp [jsOrNat, hm0]
  intro k
  induction k with
  | zero => intro _; simp [rateCalls, powCloudflareCache]
  | succ k ih =>
    intro hk1
    have hkm : k < m := hk1
    have hstate := ih (Nat.le_of_succ_le hk1)
    have hnotle : ¬ (m ≤ k) := not_le.2 hkm
    by_cases hk0 : k = 0
    · subst hk0
      rw [show rateCalls cfg ip now (powCloudflareCache cfg) 1 =
        (checkRateLimit cfg (rateCalls cfg ip now (powCloudflareCache cfg) 0) now ip).2
        from rfl, hstate]
      simp only [if_pos rfl]
      simp [checkRateLimit, hjm, Cache.get, Cache.findEntry, Cache.set, countOf,
        Cache.removeKey, hnotle]
    · rw [show rateCalls cfg ip now (powCloudflareCache cfg) (k + 1) =
        (checkRateLimit cfg (rateCalls cfg ip now (powCloudflareCache cfg) k) now ip).2
        from rfl, hstate]
      simp only [if_neg hk0]
      simp [checkRateLimit, hjm, Cache.get, Cache.findEntry, entryStale,
        Cache.removeKey, Cache.set, countOf, hnotle, Nat.sub_self]

/-- `cfgA` with a rate ceiling of one request per minute. -/
def cfg6 : CfConfig := { cfgA with requestsPerMinute := some 1 }

/-- `reqA` with a different nonce (the stamp stays valid because the
abstract digest is constant). -/
def reqB : Request := { reqA with nonce := some "n2" }

/-- C6: starting from the empty store, the first `requestsPerMinute = m`
rate-limit calls for one identity in one window all admit, the `(m+1)`-th
reports the limit exceeded, while a distinct identity at that point is
still admitted; at the pipeline level the exceeded report surfaces as a
429 response (shown on a concrete ceiling-1 run where the first valid
request passes and a second valid request from the same IP gets 429). -/
theorem rate_limit_boundary (cfg : CfConfig) (m : Nat) (ip ip2 : String) (now : Nat)
    (hm : cfg.requestsPerMinute = some m) (hm0 : m ≠ 0) (hne : ip ≠ ip2) :
    (∀ k, k < m →
      (checkRateLimit cfg (rateCalls cfg ip now (powCloudflareCache cfg) k) now ip).1 = false)
  ∧ (checkRateLimit cfg (rateCalls cfg ip now (powCloudflareCache cfg) m) now ip).1 = true
  ∧ (checkRateLimit cfg (rateCalls cfg ip now (powCloudflareCache cfg) m) now ip2).1 = false
  ∧ (handleRequest tHash cfg6 (powCloudflareCache cfg6) 1000000 reqA).1 = .pass
  ∧ (handleRequest tHash cfg6
      (handleRequest tHash cfg6 (powCloudflareCache cfg6) 1000000 reqA).2 1001000 reqB).1 =
      .response 429 "Rate limit exceeded" := by
  have hjm : jsOrNat cfg.requestsPerMinute 30 = m := by
    rw [hm]; simp [jsOrNat, hm0]
  have hkey : (("rate:" ++ ip : String) == ("rate:" ++ ip2 : String)) = false := by
    refine beq_eq_false_iff_ne.mpr ?_
    intro hcontra
    exact hne (string_append_left_cancel hcontra)
  refine ⟨?_, ?_, ?_, by decide, by decide⟩
  · intro k hk
    rw [rateCalls_entries cfg ip now m hm hm0 k (Nat.le_of_lt hk)]
    have hnotle : ¬ (m ≤ k) := not_le.2 hk
    by_cases hk0 : k = 0
    · subst hk0
      simp [checkRateLimit, hjm, Cache.get, Cache.findEntry, countOf, hnotle]
    · simp only [if_neg hk0]
      simp [checkRateLimit, hjm, Cache.get, Cache.findEntry, entryStale,
        Cache.removeKey, countOf, hnotle, Nat.sub_self]
  · rw [rateCalls_entries cfg ip now m hm hm0 m (Nat.le_refl m)]
    simp only [if_neg hm0]
    simp [checkRateLimit, hjm, Cache.get, Cache.findEntry, entryStale,
      Cache.removeKey, countOf, Nat.sub_self]
  · rw [rateCalls_entries cfg ip now m hm hm0 m (Nat.le_refl m)]
    simp only [if_neg hm0]
    simp [checkRateLimit, hjm, Cache.get, Cache.findEntry, hkey, countOf, hm0]

/-- Witness for C6 with ceiling 2, identities `"a"` and `"b"`. -/
theorem rate_limit_boundary_witness :
    (checkRateLimit cfgC (rateCalls cfgC "a" 1000 (powCloudflareCache cfgC) 1) 1000 "a").1 = false
  ∧ (checkRateLimit cfgC (rateCalls cfgC "a" 1000 (powCloudflareCache cfgC) 2) 1000 "a").1 = true
  ∧ (checkRateLimit cfgC (rateCalls cfgC "a" 1000 (powCloudflareCache cfgC) 2) 1000 "b").1 = false :=
  ⟨(rate_limit_boundary cfgC 2 "a" "b" 1000 rfl (by decide) (by decide)).1 1 (by decide),
   (rate_limit_boundary cfgC 2 "a" "b" 1000 rfl (by decide) (by decide)).2.1,
   (rate_limit_boundary cfgC 2 "a" "b" 1000 rfl (by decide) (by decide)).2.2.1⟩

/-- A cache holding exactly one rate entry for `ip` with count `n`, last
set at millisecond `s`. -/
def singleRate (ip : String) (n s : Nat) : Cache :=
  { max := 1000, defaultTtl := 30000,
    entries := [⟨"rate:" ++ ip, .count n, s, 60000⟩] }

/-- C7 (amended): the rate window is a 60-second TTL measured from the most
recent increment, not from the first: while less than 60 seconds have
passed since the last increment, an admission below the ceiling carries
the count forward and refreshes the entry's clock to `now`; at the ceiling
the call rejects without touching the count; and only once more than 60
seconds pass after the LAST increment does the counter reset (the next
call finds the entry stale and starts again at count 1). -/
theorem rate_window_sliding (cfg : CfConfig) (m n s now : Nat) (ip : String)
    (hm : cfg.requestsPerMinute = some m) (hm0 : m ≠ 0) :
    (now - s ≤ 60000 → n < m →
      checkRateLimit cfg (singleRate ip n s) now ip = (false, singleRate ip (n + 1) now))
  ∧ (now - s ≤ 60000 → m ≤ n →
      checkRateLimit cfg (singleRate ip n s) now ip = (true, singleRate ip n s))
  ∧ (60000 < now - s →
      checkRateLimit cfg (singleRate ip n s) now ip = (false, singleRate ip 1 now)) := by
  have hjm : jsOrNat cfg.requestsPerMinute 30 = m := by
    rw [hm]; simp [jsOrNat, hm0]
  refine ⟨?_, ?_, ?_⟩
  · intro hlive hn
    have hnotle : ¬ (m ≤ n) := not_le.2 hn
    have hstale : entryStale now ⟨"rate:" ++ ip, .count n, s, 60000⟩ = false := by
      simp [entryStale]; omega
    simp [checkRateLimit, hjm, Cache.get, Cache.findEntry, singleRate, hstale,
      Cache.removeKey, Cache.set, countOf, hnotle]
  · intro hlive hn
    have hstale : entryStale now ⟨"rate:" ++ ip, .count n, s, 60000⟩ = false := by
      simp [entryStale]; omega
    simp [checkRateLimit, hjm, Cache.get, Cache.findEntry, singleRate, hstale,
      Cache.removeKey, countOf, hn]
  · intro hgone
    have hstale : entryStale now ⟨"rate:" ++ ip, .count n, s, 60000⟩ = true := by
      simp [entryStale]; omega
    simp [checkRateLimit, hjm, Cache.get, Cache.findEntry, singleRate, hstale,
      Cache.removeKey, Cache.set, countOf, hm0]

/-- Witness for C7 (amended): an admission 49 seconds after the last one
carries count 1 to count 2 and refreshes the clock to ms 50000. -/
theorem rate_window_sliding_witness :
    checkRateLimit cfgC (singleRate "a" 1 1000) 50000 "a" = (false, singleRate "a" 2 50000) :=
  (rate_window_sliding cfgC 2 1 1000 50000 "a" rfl (by decide)).1 (by decide) (by decide)

/-! ## Client solver bound (C9) -/

/-- Full characterization of the solving loop: on failure it has consumed
its whole remaining budget and every attempt in range failed the
difficulty test; on success the stamp is the digest of the attempt's data,
it meets the difficulty, and the attempt counter records which draw
succeeded. -/
lemma powLoop_spec (h : HashModel) (endpoint timestamp context : String)
    (difficulty : Nat) (nonces : Nat → String) :
    ∀ (remaining attempts : Nat),
      ((powLoop h endpoint timestamp context difficulty nonces attempts remaining).1 = none →
        (powLoop h endpoint timestamp context difficulty nonces attempts remaining).2 =
          attempts + remaining ∧
        ∀ j, attempts ≤ j → j < attempts + remaining →
          hasLeadingZeros
            (h.sha256 (endpoint ++ ":" ++ timestamp ++ ":" ++ nonces j ++ ":" ++ context))
            difficulty = false)
    ∧ (∀ nonce stamp,
        (powLoop h endpoint timestamp context difficulty nonces attempts remaining).1 =
          some (nonce, stamp) →
        stamp = h.sha256 (endpoint ++ ":" ++ timestamp ++ ":" ++ nonce ++ ":" ++ context)
        ∧ hasLeadingZeros stamp difficulty = true
        ∧ ∃ j, attempts ≤ j ∧ j < attempts + remaining ∧
            (powLoop h endpoint timestamp context difficulty nonces attempts remaining).2 = j + 1
            ∧ nonce = nonces j) := by
  intro remaining
  induction remaining with
  | zero =>
    intro attempts
    refine ⟨?_, ?_⟩
    · intro _
      refine ⟨rfl, ?_⟩
      intro j hj1 hj2
      omega
    · intro nonce stamp hcontra
      simp [powLoop] at hcontra
  | succ r ih =>
    intro attempts
    by_cases hgood : hasLeadingZeros
        (h.sha256 (endpoint ++ ":" ++ timestamp ++ ":" ++ nonces attempts ++ ":" ++ context))
        difficulty = true
    · refine ⟨?_, ?_⟩
      · intro hnone
        simp only [powLoop, hgood, if_true] at hnone
        exact absurd hnone (Option.some_ne_none _)
      · intro nonce stamp hsome
        simp only [powLoop, hgood, if_true] at hsome ⊢
        obtain ⟨hn, hst⟩ := Prod.mk.injEq .. ▸ Option.some.injEq _ _ ▸ hsome
        refine ⟨?_, ?_, attempts, Nat.le_refl _, by omega, ?_, ?_⟩
        · rw [← hn, ← hst]
        · rw [← hst]; exact hgood
        · simp [powLoop, hgood]
        · rw [← hn]
    · have hbad : hasLeadingZeros
          (h.sha256 (endpoint ++ ":" ++ timestamp ++ ":" ++ nonces attempts ++ ":" ++ context))
          difficulty = false := by
        cases hco : hasLeadingZeros
            (h.sha256 (endpoint ++ ":" ++ timestamp ++ ":" ++ nonces attempts ++ ":" ++ context))
            difficulty
        · rfl
        · exact absurd hco hgood
      have hrec : powLoop h endpoint timestamp context difficulty nonces attempts (r + 1) =
          powLoop h endpoint timestamp context difficulty nonces (attempts + 1) r := by
        simp [powLoop, hbad]
      refine ⟨?_, ?_⟩
      · intro hnone
        rw [hrec] at hnone ⊢
        obtain ⟨hcount, hall⟩ := (ih (attempts + 1)).1 hnone
        refine ⟨by omega, ?_⟩
        intro j hj1 hj2
        by_cases hja : j = attempts
        · subst hja; exact hbad
        · exact hall j (by omega) (by omega)
      · intro nonce stamp hsome
        rw [hrec] at hsome ⊢
        obtain ⟨hst, hlz, j, hj1, hj2, hcount, hnn⟩ := (ih (attempts + 1)).2 nonce stamp hsome
        exact ⟨hst, hlz, j, by omega, by omega, hcount, hnn⟩

/-- C9: the client solving loop performs at most `maxRetries * 100`
attempts — on success the returned stamp is the digest of
`endpoint:timestamp:nonce:context` for the nonce drawn at some attempt
within the budget and it satisfies the configured difficulty, the counter
standing at that attempt's index plus one; on failure the loop stops after
exactly `maxRetries * 100` unsuccessful attempts (every draw in the budget
failed the difficulty test) and surfaces the failure, with no retry under
a different budget. -/
theorem generateValidPow_bounded (h : HashModel) (difficultyOpt maxRetriesOpt : Option Nat)
    (endpoint timestamp context : String) (nonces : Nat → String) :
    ((generateValidPow h difficultyOpt maxRetriesOpt endpoint timestamp context nonces).1 = none →
      (generateValidPow h difficultyOpt maxRetriesOpt endpoint timestamp context nonces).2 =
        jsOrNat maxRetriesOpt 5 * 100 ∧
      ∀ j, j < jsOrNat maxRetriesOpt 5 * 100 →
        hasLeadingZeros
          (h.sha256 (endpoint ++ ":" ++ timestamp ++ ":" ++ nonces j ++ ":" ++ context))
          (jsOrNat difficultyOpt 4) = false)
  ∧ (∀ nonce stamp,
      (generateValidPow h difficultyOpt maxRetriesOpt endpoint timestamp context nonces).1 =
        some (nonce, stamp) →
      stamp = h.sha256 (endpoint ++ ":" ++ timestamp ++ ":" ++ nonce ++ ":" ++ context)
      ∧ hasLeadingZeros stamp (jsOrNat difficultyOpt 4) = true
      ∧ ∃ j, j < jsOrNat maxRetriesOpt 5 * 100 ∧
          (generateValidPow h difficultyOpt maxRetriesOpt endpoint timestamp context nonces).2 =
            j + 1
          ∧ nonce = nonces j) := by
  have hspec := powLoop_spec h endpoint timestamp context (jsOrNat difficultyOpt 4) nonces
    (jsOrNat maxRetriesOpt 5 * 100) 0
  refine ⟨?_, ?_⟩
  · intro hnone
    obtain ⟨hcount, hall⟩ := hspec.1 hnone
    refine ⟨by simpa using hcount, ?_⟩
    intro j hj
    exact hall j (Nat.zero_le j) (by omega)
  · intro nonce stamp hsome
    obtain ⟨hst, hlz, j, _, hj2, hcount, hnn⟩ := hspec.2 nonce stamp hsome
    exact ⟨hst, hlz, j, by omega, hcount, hnn⟩

/-- Witness for C9: under the constant digest `"00aa"` the first draw
succeeds (counter 1); under a constant digest `"ff"` with ceiling
`maxRetries = 1` the loop fails after exactly 100 attempts. -/
theorem generateValidPow_bounded_witness :
    ("00aa" : String) =
      tHash.sha256 ("/api" ++ ":" ++ "1000" ++ ":" ++ "n0" ++ ":" ++ "ctx")
  ∧ hasLeadingZeros "00aa" (jsOrNat (some 4) 4) = true
  ∧ (∃ j, j < jsOrNat (some 5) 5 * 100 ∧
      (generateValidPow tHash (some 4) (some 5) "/api" "1000" "ctx" (fun _ => "n0")).2 = j + 1
      ∧ ("n0" : String) = (fun _ => ("n0" : String)) j)
  ∧ (generateValidPow { tHash with sha256 := fun _ => "ff" } (some 4) (some 1)
      "/api" "1000" "ctx" (fun _ => "n0")).2 = jsOrNat (some 1) 5 * 100 := by
  obtain ⟨hst, hlz, hex⟩ :=
    (generateValidPow_bounded tHash (some 4) (some 5) "/api" "1000" "ctx"
      (fun _ => "n0")).2 "n0" "00aa" (by decide)
  refine ⟨hst, hlz, hex, ?_⟩
  exact ((generateValidPow_bounded { tHash with sha256 := fun _ => "ff" } (some 4) (some 1)
    "/api" "1000" "ctx" (fun _ => "n0")).1 (by decide)).1

/-! ## Shared LRU store: capacity bound and cross-eviction (C10) -/

/-- Filtering out a key that `find?` locates makes the list strictly
shorter. -/
lemma find_filter_lt (key : String) : ∀ (l : List Entry) (e : Entry),
    l.find? (fun x => x.key == key) = some e →
      (l.filter (fun x => !(x.key == key))).length < l.length := by
  intro l
  induction l with
  | nil => intro e hf; simp at hf
  | cons a t ih =>
    intro e hf
    cases hpa : (a.key == key) with
    | true =>
      have := List.length_filter_le (fun x => !(x.key == key)) t
      simp [List.filter_cons, hpa]
      omega
    | false =>
      have hft : t.find? (fun x => x.key == key) = some e := by
        simpa [List.find?_cons, hpa] using hf
      have := ih e hft
      simp [List.filter_cons, hpa]
      omega

/-- `set` keeps the entry count within `max` and leaves `max` unchanged. -/
lemma set_entries_length (c : Cache) (now : Nat) (key : String) (v : CacheVal)
    (ttl : Option Nat) (hmax : 1 ≤ c.max) (hlen : c.entries.length ≤ c.max) :
    (c.set now key v ttl).entries.length ≤ c.max ∧ (c.set now key v ttl).max = c.max := by
  unfold Cache.set Cache.findEntry Cache.removeKey
  cases hf : c.entries.find? (fun e => e.key == key) with
  | some e =>
    simp only [hf]
    refine ⟨?_, by trivial⟩
    have := find_filter_lt key c.entries e hf
    simp only [List.length_cons]
    omega
  | none =>
    simp only [hf]
    refine ⟨?_, by trivial⟩
    by_cases hcap : c.max ≤ c.entries.length
    · simp only [if_pos hcap, List.length_cons, List.length_dropLast]
      omega
    · simp only [if_neg hcap, List.length_cons]
      omega

/-- `get` never grows the store and leaves `max` unchanged. -/
lemma get_entries_length (c : Cache) (now : Nat) (key : String)
    (hlen : c.entries.length ≤ c.max) :
    ((c.get now key).2).entries.length ≤ c.max ∧ ((c.get now key).2).max = c.max := by
  unfold Cache.get Cache.findEntry Cache.removeKey
  cases hf : c.entries.find? (fun e => e.key == key) with
  | none => simp only [hf]; exact ⟨hlen, by trivial⟩
  | some e =>
    simp only [hf]
    by_cases hstale : entryStale now e = true
    · simp only [hstale, if_true]
      refine ⟨?_, by trivial⟩
      have := List.length_filter_le (fun x => !(x.key == key)) c.entries
      omega
    · simp only [Bool.not_eq_true] at hstale
      simp only [hstale, Bool.false_eq_true, if_false]
      refine ⟨?_, by trivial⟩
      have := find_filter_lt key c.entries e hf
      simp only [List.length_cons]
      omega

/-- `checkRateLimit` keeps the entry count within the bound. -/
lemma checkRateLimit_entries_length (cfg : CfConfig) (c : Cache) (now : Nat)
    (ip : String) (hmax : 1 ≤ c.max) (hlen : c.entries.length ≤ c.max) :
    ((checkRateLimit cfg c now ip).2).entries.length ≤ c.max
    ∧ ((checkRateLimit cfg c now ip).2).max = c.max := by
  obtain ⟨hg1, hg2⟩ := get_entries_length c now ("rate:" ++ ip) hlen
  have hmax1 : 1 ≤ ((c.get now ("rate:" ++ ip)).2).max := by rw [hg2]; exact hmax
  have hlen1 : ((c.get now ("rate:" ++ ip)).2).entries.length ≤
      ((c.get now ("rate:" ++ ip)).2).max := by rw [hg2]; exact hg1
  obtain ⟨hs1, hs2⟩ := set_entries_length ((c.get now ("rate:" ++ ip)).2) now
    ("rate:" ++ ip) (.count (countOf (c.get now ("rate:" ++ ip)).1 + 1)) (some 60000)
    hmax1 hlen1
  unfold checkRateLimit
  by_cases hex : jsOrNat cfg.requestsPerMinute 30 ≤ countOf (c.get now ("rate:" ++ ip)).1
  · simp only [if_pos hex]
    exact ⟨hg1, hg2⟩
  · simp only [if_neg hex]
    refine ⟨?_, ?_⟩
    · rw [hg2] at hs1; exact hs1
    · rw [hs2]; exact hg2

/-- `handleRequest` keeps the entry count within the bound on every path. -/
lemma handleRequest_entries_length (h : HashModel) (cfg : CfConfig) (c : Cache)
    (nowMs : Nat) (req : Request) (hmax : 1 ≤ c.max) (hlen : c.entries.length ≤ c.max) :
    (((handleRequest h cfg c nowMs req).2).entries.length ≤ c.max)
    ∧ ((handleRequest h cfg c nowMs req).2).max = c.max := by
  obtain ⟨hs1, hs2⟩ := set_entries_length c nowMs
    (req.timestamp.getD "" ++ ":" ++ req.nonce.getD "") .mark none hmax hlen
  have hmax1 : 1 ≤ (c.set nowMs (req.timestamp.getD "" ++ ":" ++ req.nonce.getD "")
      CacheVal.mark none).max := by rw [hs2]; exact hmax
  have hlen1 : (c.set nowMs (req.timestamp.getD "" ++ ":" ++ req.nonce.getD "")
      CacheVal.mark none).entries.length ≤
      (c.set nowMs (req.timestamp.getD "" ++ ":" ++ req.nonce.getD "")
        CacheVal.mark none).max := by rw [hs2]; exact hs1
  obtain ⟨hr1, hr2⟩ := checkRateLimit_entries_length cfg
    (c.set nowMs (req.timestamp.getD "" ++ ":" ++ req.nonce.getD "") CacheVal.mark none)
    nowMs (jsOrStr req.cfConnectingIp "") hmax1 hlen1
  have hrlen : ((checkRateLimit cfg
      (c.set nowMs (req.timestamp.getD "" ++ ":" ++ req.nonce.getD "") CacheVal.mark none)
      nowMs (jsOrStr req.cfConnectingIp "")).2).entries.length ≤ c.max := by
    rw [hs2] at hr1; exact hr1
  have hrmax : ((checkRateLimit cfg
      (c.set nowMs (req.timestamp.getD "" ++ ":" ++ req.nonce.getD "") CacheVal.mark none)
      nowMs (jsOrStr req.cfConnectingIp "")).2).max = c.max := by
    rw [hr2]; exact hs2
  simp only [handleRequest]
  repeat' split
  all_goals first
    | exact ⟨hlen, rfl⟩
    | exact ⟨hs1, hs2⟩
    | exact ⟨hrlen, hrmax⟩

/-- A sequence of worker invocations, threading the shared cache. -/
def runRequests (h : HashModel) (cfg : CfConfig) : List (Nat × Request) → Cache → Cache
  | [], c => c
  | op :: rest, c => runRequests h cfg rest (handleRequest h cfg c op.1 op.2).2

/-- The capacity bound is preserved by any sequence of invocations. -/
lemma runRequests_entries_length (h : HashModel) (cfg : CfConfig) :
    ∀ (ops : List (Nat × Request)) (c : Cache), 1 ≤ c.max →
      c.entries.length ≤ c.max →
      (runRequests h cfg ops c).entries.length ≤ c.max
      ∧ (runRequests h cfg ops c).max = c.max := by
  intro ops
  induction ops with
  | nil => intro c _ h2; exact ⟨h2, rfl⟩
  | cons op rest ih =>
    intro c h1 h2
    obtain ⟨hh1, hh2⟩ := handleRequest_entries_length h cfg c op.1 op.2 h1 h2
    have hmax2 : 1 ≤ ((handleRequest h cfg c op.1 op.2).2).max := by rw [hh2]; exact h1
    have hlen2 : ((handleRequest h cfg c op.1 op.2).2).entries.length ≤
        ((handleRequest h cfg c op.1 op.2).2).max := by rw [hh2]; exact hh1
    obtain ⟨hr1, hr2⟩ := ih ((handleRequest h cfg c op.1 op.2).2) hmax2 hlen2
    rw [hh2] at hr1 hr2
    exact ⟨hr1, hr2⟩

/-- `cfgA` with the shared store capped at a single entry. -/
def cfg10 : CfConfig := { cfgA with cacheSize := some 1 }

/-- C10: the worker's replay markers and rate counters live in one LRU
store bounded by `cacheSize`: over any sequence of requests the combined
number of stored nonce and rate entries never exceeds
`cacheSize || 10000`; and under pressure the two uses evict each other —
with `cacheSize = 1`, a valid request marks its nonce and the subsequent
rate-counter insertion evicts that still-live nonce entry (the store ends
up holding only the rate key), so resubmitting the identical proof within
the tolerance window is admitted again. -/
theorem shared_cache_capacity_and_eviction :
    (∀ (h : HashModel) (cfg : CfConfig) (ops : List (Nat × Request)),
      (runRequests h cfg ops (powCloudflareCache cfg)).entries.length ≤
        jsOrNat cfg.cacheSize 10000)
  ∧ (handleRequest tHash cfg10 (powCloudflareCache cfg10) 1000000 reqA).1 = .pass
  ∧ (handleRequest tHash cfg10 (powCloudflareCache cfg10) 1000000 reqA).2.entries =
      [⟨"rate:1.2.3.4", .count 1, 1000000, 60000⟩]
  ∧ (handleRequest tHash cfg10
      (handleRequest tHash cfg10 (powCloudflareCache cfg10) 1000000 reqA).2
      1010000 reqA).1 = .pass := by
  refine ⟨?_, by decide, by decide, by decide⟩
  intro h cfg ops
  have hmax : 1 ≤ (powCloudflareCache cfg).max :=
    Nat.pos_of_ne_zero (jsOrNat_ne_zero (by decide))
  have h0 : (powCloudflareCache cfg).entries.length ≤ (powCloudflareCache cfg).max := by
    simp [powCloudflareCache]
  exact (runRequests_entries_length h cfg ops (powCloudflareCache cfg) hmax h0).1

end PowShield
